import Mathlib

/-!
# Verification of the walnats subscription runtime

A shallow embedding, in Lean 4, of the parts of the walnats source that the
checked claims are about:

* `walnats/_actors/_actor.py` — `Actor._get_nak_delay`, `Actor._handle_message`;
* `walnats/_context.py` — `BaseContext.attempts`;
* `walnats/_actors/_priority.py` — `Priority.acquire`;
* `walnats/_events/_connection.py` — `ConnectedEvents._make_headers`;
* `walnats/_events/_clock.py` — `Clock._emit`;
* `walnats/middlewares/_wrappers.py` — `ErrorThresholdMiddleware`,
  `FrequencyMiddleware`;
* `walnats/serializers/_wrappers.py` — `HMACSerializer`.

Python floats are modelled as rationals (ℚ), byte strings as `List ℕ`,
dictionaries either as functions `String → Option _` or as association lists,
and fallible calls as `Except`.
-/

set_option autoImplicit false

namespace Walnats

/-- An exception raised by Python code.  `exception n` stands for an ordinary
`Exception` instance (`n` is an arbitrary identity tag), `cancelled` stands for
`asyncio.CancelledError`.  Both are caught by the `except (Exception,
asyncio.CancelledError)` clause of `Actor._handle_message`. -/
inductive Exc where
  | exception : ℕ → Exc
  | cancelled : Exc
deriving DecidableEq, Repr

/-- `Actor._get_nak_delay` from `walnats/_actors/_actor.py`:

```python
def _get_nak_delay(self, attempt: int | None) -> float:
    delays = self.retry_delay
    if not delays:
        return 0
    if attempt is None:
        return delays[0]
    assert attempt >= 0
    if attempt >= len(delays):
        return delays[-1]
    return delays[attempt]
```
-/
def getNakDelay (delays : List ℚ) (attempt : Option ℕ) : ℚ :=
  if delays = [] then 0
  else
    match attempt with
    | none => delays.headD 0
    | some a => if delays.length ≤ a then delays.getLastD 0 else delays.getD a 0

/-- The value of `self.metadata.num_delivered or 1` in Python: `num_delivered`
is `Optional[int]`; both `None` and `0` are falsy, so they yield `1`. -/
def attemptsBase (numDelivered : Option ℕ) : ℕ :=
  match numDelivered with
  | none => 1
  | some n => if n = 0 then 1 else n

/-- `BaseContext.attempts` from `walnats/_context.py`:

```python
attempts = self.metadata.num_delivered or 1
if attempts >= 2:
    delayed = (self._msg.headers or {}).get(HEADER_DELAY)
    if delayed:
        return attempts - 1
return attempts
```

`delayHeader` is the value of the `Walnats-Delay` header if the key is present.
`if delayed:` is Python truthiness on an `Optional[str]`: `None` and the empty
string are falsy. -/
def attempts (numDelivered : Option ℕ) (delayHeader : Option String) : ℕ :=
  let a := attemptsBase numDelivered
  if 2 ≤ a then
    match delayHeader with
    | some s => if s = "" then a else a - 1
    | none => a
  else a

/-- The observable steps taken by `Actor._handle_message` for one message.
Hook steps carry the index of the middleware in `actor.middlewares`. -/
inductive Action where
  | nak (delay : ℚ)
  | startPulse
  | cancelPulse
  | acquireActorSem
  | acquireGlobalSem
  | releaseGlobalSem
  | releaseActorSem
  | decodePayload
  | onStart (i : ℕ)
  | runHandler
  | ack
  | respond
  | onFailure (i : ℕ)
  | onSuccess (i : ℕ)
deriving DecidableEq, Repr

/-- The environment a single `_handle_message` call runs in: the clock
(`self._now()`), Python `float()` parsing of the delay header (which may raise
`ValueError`), the event's payload decoder (which may raise), the dispatch of
each `on_start` middleware hook (which may raise synchronously), and the
handler invocation (which may raise, be cancelled, or time out — all surfacing
as a raised exception at the `await`). -/
structure HandleEnv where
  now : ℚ
  parseFloat : String → Except Exc ℚ
  decode : List ℕ → Except Exc ℕ
  onStartHook : ℕ → Except Exc Unit
  handler : ℕ → Except Exc ℕ

/-- The fields of `Actor` that `_handle_message` reads. -/
structure ActorModel where
  pulse : Bool
  numMiddlewares : ℕ
  retryDelay : List ℚ
  hasResponse : Bool

/-- The fields of the incoming `nats.aio.msg.Msg` that `_handle_message`
reads: the payload bytes, the `Walnats-Delay` and `Walnats-Reply` headers
(value present iff the key is in `msg.headers`), and
`msg.metadata.num_delivered`. -/
structure MsgModel where
  data : List ℕ
  delayHeader : Option String
  replyHeader : Option String
  numDelivered : Option ℕ

/-- The `on_start` dispatch loop

```python
for mw in self.middlewares:
    coro = mw.on_start(ctx)
    if coro is not None:
        tasks.start(coro, ...)
```

run over middlewares `i, i+1, …` while `k` remain.  Returns the hook steps
that executed and the exception of the first dispatch that raised, if any. -/
def runOnStarts (env : HandleEnv) : ℕ → ℕ → List Action × Option Exc
  | 0, _ => ([], none)
  | k + 1, i =>
    match env.onStartHook i with
    | .error e => ([Action.onStart i], some e)
    | .ok _ =>
      let r := runOnStarts env k (i + 1)
      (Action.onStart i :: r.1, r.2)

/-- The `try:` block body of `_handle_message`: acquire the per-actor
semaphore, then the global semaphore through the priority gate; decode the
payload; dispatch the `on_start` hooks; run the handler.  The ambient
`async with` releases both semaphores when the block is left, whether
normally or by exception.  Returns the steps taken and the exception that
escaped the block, if any. -/
def tryBody (env : HandleEnv) (a : ActorModel) (msg : MsgModel) :
    List Action × Option Exc :=
  let pre := [Action.acquireActorSem, Action.acquireGlobalSem]
  let post := [Action.releaseGlobalSem, Action.releaseActorSem]
  match env.decode msg.data with
  | .error e => (pre ++ [Action.decodePayload] ++ post, some e)
  | .ok payload =>
    match runOnStarts env a.numMiddlewares 0 with
    | (hookActs, some e) =>
      (pre ++ [Action.decodePayload] ++ hookActs ++ post, some e)
    | (hookActs, none) =>
      match env.handler payload with
      | .error e =>
        (pre ++ [Action.decodePayload] ++ hookActs ++ [Action.runHandler] ++ post,
         some e)
      | .ok _ =>
        (pre ++ [Action.decodePayload] ++ hookActs ++ [Action.runHandler] ++ post,
         none)

/-- Everything `_handle_message` does after the delay check: start the pulse
task when `pulse=True`, run the `try:` block, and then either the `except`
clause (cancel pulse, nak with the retry delay, dispatch `on_failure` on every
middleware) or the `else` clause (cancel pulse, ack, publish the response when
the event has a response schema and the message carries a `Walnats-Reply`
inbox, dispatch `on_success` on every middleware). -/
def handleCore (env : HandleEnv) (a : ActorModel) (msg : MsgModel) :
    List Action :=
  let pulseActs := if a.pulse then [Action.startPulse] else []
  let cancelActs := if a.pulse then [Action.cancelPulse] else []
  let t := tryBody env a msg
  match t.2 with
  | some _ =>
    pulseActs ++ t.1 ++ cancelActs
      ++ [Action.nak (getNakDelay a.retryDelay msg.numDelivered)]
      ++ (List.range a.numMiddlewares).map Action.onFailure
  | none =>
    pulseActs ++ t.1 ++ cancelActs ++ [Action.ack]
      ++ (if a.hasResponse ∧ msg.replyHeader ≠ none then [Action.respond] else [])
      ++ (List.range a.numMiddlewares).map Action.onSuccess

/-- The delay check at the top of `_handle_message`:

```python
delay_str = (msg.headers or {}).get(HEADER_DELAY)
if delay_str:
    delayed_until = float(delay_str)
    delay_left = delayed_until - self._now()
    if delay_left > .001:
        await msg.nak(delay=delay_left)
        return
```

Returns `some` outcome when the check short-circuits the call: either the
`ValueError` from `float()` (which is not inside any `try`) or the immediate
nak-and-return.  Returns `none` when handling falls through to the body. -/
def delayCheck (env : HandleEnv) (msg : MsgModel) :
    Option (Except Exc (List Action)) :=
  match msg.delayHeader with
  | none => none
  | some s =>
    if s = "" then none
    else
      match env.parseFloat s with
      | .error e => some (.error e)
      | .ok t =>
        if 1 / 1000 < t - env.now then some (.ok [Action.nak (t - env.now)])
        else none

/-- `Actor._handle_message`, as the list of observable steps it performs.  A
`.error` result is an exception escaping the per-message task. -/
def handleMessage (env : HandleEnv) (a : ActorModel) (msg : MsgModel) :
    Except Exc (List Action) :=
  match delayCheck env msg with
  | some r => r
  | none => .ok (handleCore env a msg)

/-! ## Priority gate (`walnats/_actors/_priority.py`) -/

/-- One step of `Priority.acquire` against the shared semaphore:
entering `async with sem` (acquire), `await asyncio.sleep(0)` (yield to the
scheduler), leaving `async with sem` (release), and the critical section run
while the permit is held (`yield` of the context manager). -/
inductive SemOp where
  | acq
  | yieldCtl
  | rel
  | critical
deriving DecidableEq, Repr

/-- `Priority.acquire` from `walnats/_actors/_priority.py`, as the sequence of
semaphore operations it performs for priority value `p`:

```python
for _ in range(self.value):
    async with sem:
        await asyncio.sleep(0)
async with sem:
    yield
```

`p` acquire-yield-release rounds, then acquire, critical section, release. -/
def priorityTrace (p : ℕ) : List SemOp :=
  (List.range p).flatMap (fun _ => [SemOp.acq, SemOp.yieldCtl, SemOp.rel])
    ++ [SemOp.acq, SemOp.critical, SemOp.rel]

/-- Net number of permits of the shared semaphore held after performing the
given operations (acquires minus releases). -/
def heldAfter : List SemOp → ℤ
  | [] => 0
  | SemOp.acq :: rest => 1 + heldAfter rest
  | SemOp.rel :: rest => -1 + heldAfter rest
  | _ :: rest => heldAfter rest

/-! ## Publish-side headers (`walnats/_events/_connection.py`) -/

/-- `Nats-Msg-Id` (the value of `nats.js.api.Header.MSG_ID`). -/
def HEADER_ID : String := "Nats-Msg-Id"

/-- Inbox header for request/reply. -/
def HEADER_REPLY : String := "Walnats-Reply"

/-- Trace-id header. -/
def HEADER_TRACE : String := "Walnats-Trace"

/-- Delayed-until timestamp header (UTC epoch seconds as a decimal string). -/
def HEADER_DELAY : String := "Walnats-Delay"

/-- A Python `dict[str, str]` of headers, as a partial map. -/
def Headers : Type := String → Option String

/-- `headers[k] = v`. -/
def hset (hs : Headers) (k v : String) : Headers :=
  fun k' => if k' = k then some v else hs k'

/-- `walnats.CloudEvent` from `walnats/_events/_cloud_event.py`.  The optional
`time` field is carried as its already-rendered RFC 3339 text
(`f'{time.isoformat()}Z'`), and `sampledrate` as the integer that `str()` is
applied to; all other fields are strings in the source as well. -/
structure CloudEvent where
  id : String
  source : String
  type : String
  specversion : String := "1.0"
  datacontenttype : Option String := none
  dataschema : Option String := none
  subject : Option String := none
  time : Option String := none
  dataref : Option String := none
  partitionkey : Option String := none
  sampledrate : Option ℤ := none
  sequence : Option String := none
  traceparent : Option String := none
  tracestate : Option String := none

/-- `CloudEvent.as_headers`: every non-`None` field `k` of the dataclass is
projected to a `ce-k` header with `str()` of its value. -/
def CloudEvent.asHeaders (ce : CloudEvent) : Headers := fun k =>
  if k = "ce-id" then some ce.id
  else if k = "ce-source" then some ce.source
  else if k = "ce-type" then some ce.type
  else if k = "ce-specversion" then some ce.specversion
  else if k = "ce-datacontenttype" then ce.datacontenttype
  else if k = "ce-dataschema" then ce.dataschema
  else if k = "ce-subject" then ce.subject
  else if k = "ce-time" then ce.time
  else if k = "ce-dataref" then ce.dataref
  else if k = "ce-partitionkey" then ce.partitionkey
  else if k = "ce-sampledrate" then ce.sampledrate.map toString
  else if k = "ce-sequence" then ce.sequence
  else if k = "ce-traceparent" then ce.traceparent
  else if k = "ce-tracestate" then ce.tracestate
  else none

/-- The `meta` argument of `ConnectedEvents.emit`: either a plain
`dict[str, str]` or a `CloudEvent`. -/
inductive MetaArg where
  | dict (d : Headers)
  | cloud (ce : CloudEvent)

/-- The headers the construction starts from: `{}`, `meta.copy()`, or
`meta.as_headers()`. -/
def metaHeaders (meta : Option MetaArg) : Headers :=
  match meta with
  | none => fun _ => none
  | some (MetaArg.dict d) => d
  | some (MetaArg.cloud ce) => ce.asHeaders

/-- `ConnectedEvents._make_headers` from `walnats/_events/_connection.py`.
`reprF` models Python's `f'{...}'` rendering of a float to its decimal
string; `now` is `self._now()` (UTC epoch seconds). -/
def makeHeaders (now : ℚ) (reprF : ℚ → String)
    (uid trace : Option String) (delay : Option ℚ)
    (meta : Option MetaArg) (reply : Option String) : Headers :=
  let h0 := metaHeaders meta
  let h1 :=
    match uid with
    | some u => hset h0 HEADER_ID u
    | none =>
      match meta with
      | some (MetaArg.cloud ce) => hset h0 HEADER_ID ce.id
      | _ => h0
  let h2 := match trace with
    | some t => hset h1 HEADER_TRACE t
    | none => h1
  let h3 := match delay with
    | some d => hset h2 HEADER_DELAY (reprF (now + d))
    | none => h2
  match reply with
  | some r => hset h3 HEADER_REPLY r
  | none => h3

/-! ## Clock (`walnats/_events/_clock.py`) -/

/-- Python float `%` on non-negative operands: `a % b = a - b * ⌊a / b⌋`. -/
def pyMod (a b : ℚ) : ℚ := a - b * ⌊a / b⌋

/-- The message id computed by `Clock._emit`:

```python
uid = now.timestamp() % self.period
await conn.emit(self.event, now, uid=f'{uid}', meta=self.meta)
```

`now.timestamp()` is the wake-up instant in epoch seconds (a float, fractional
part included), `period` the clock period `P`. -/
def clockUid (period : ℕ) (nowTs : ℚ) : ℚ := pyMod nowTs (period : ℚ)

/-- The period index of a wake-up instant: `floor(now_epoch / P)`.  Two
wake-ups belong to the same clock period exactly when their indices agree. -/
def clockPeriodIndex (period : ℕ) (nowTs : ℚ) : ℤ := ⌊nowTs / (period : ℚ)⌋

/-! ## Middleware wrappers (`walnats/middlewares/_wrappers.py`) -/

/-- Association-list lookup, Python `dict.get`. -/
def alGet {α : Type} (d : List (String × α)) (k : String) : Option α :=
  (d.find? (fun p => p.1 = k)).map Prod.snd

/-- Association-list update, Python `dict[k] = v`. -/
def alSet {α : Type} (d : List (String × α)) (k : String) (v : α) :
    List (String × α) :=
  match d with
  | [] => [(k, v)]
  | (k', v') :: rest =>
    if k' = k then (k, v) :: rest else (k', v') :: alSet rest k v

/-- Python `dict.setdefault(k, v₀)`: insert `v₀` if the key is absent. -/
def alSetdefault {α : Type} (d : List (String × α)) (k : String) (v₀ : α) :
    List (String × α) :=
  match alGet d k with
  | some _ => d
  | none => alSet d k v₀

/-- The three limits of `ErrorThresholdMiddleware` (all default to 20). -/
structure ThresholdCfg where
  totalFailures : ℕ := 20
  actorFailures : ℕ := 20
  messageFailures : ℕ := 20

/-- The mutable counters of `ErrorThresholdMiddleware`: `_overall` and
`_per_actor`. -/
structure ThresholdState where
  overall : ℕ
  perActor : List (String × ℕ)

/-- The state a freshly constructed `ErrorThresholdMiddleware` holds. -/
def ThresholdState.init : ThresholdState := ⟨0, []⟩

/-- `ErrorThresholdMiddleware.on_failure`:

```python
actor_name = f'{ctx.actor.event.name}.{ctx.actor.name}'
if self._overall > self.total_failures:
    return self.middleware.on_failure(ctx)
if self._per_actor.setdefault(actor_name, 0) > self.actor_failures:
    return self.middleware.on_failure(ctx)
if ctx.attempts > self.message_failures:
    return self.middleware.on_failure(ctx)
self._overall += 1
self._per_actor[actor_name] += 1
return None
```

Returns the new state and whether the wrapped middleware's `on_failure` was
forwarded. -/
def thresholdOnFailure (cfg : ThresholdCfg) (st : ThresholdState)
    (actorName : String) (ctxAttempts : ℕ) : ThresholdState × Bool :=
  if cfg.totalFailures < st.overall then (st, true)
  else
    let pa := alSetdefault st.perActor actorName 0
    let cur := (alGet pa actorName).getD 0
    if cfg.actorFailures < cur then ({ st with perActor := pa }, true)
    else if cfg.messageFailures < ctxAttempts then
      ({ st with perActor := pa }, true)
    else
      ({ overall := st.overall + 1, perActor := alSet pa actorName (cur + 1) },
       false)

/-- `ErrorThresholdMiddleware.on_success`: reset `_overall`, drop the actor's
counter. -/
def thresholdOnSuccess (st : ThresholdState) (actorName : String) :
    ThresholdState :=
  { overall := 0,
    perActor := st.perActor.filter (fun p => ¬ p.1 = actorName) }

/-- Run `on_failure` over a sequence of failing deliveries
(`actor_name`, `ctx.attempts`) and count how many were forwarded to the
wrapped middleware. -/
def thresholdRun (cfg : ThresholdCfg) (calls : List (String × ℕ)) :
    ThresholdState × ℕ :=
  calls.foldl
    (fun acc c =>
      let r := thresholdOnFailure cfg acc.1 c.1 c.2
      (r.1, acc.2 + if r.2 then 1 else 0))
    (ThresholdState.init, 0)

/-- Like `thresholdRun` but keeping the per-call forwarded flags. -/
def thresholdFlags (cfg : ThresholdCfg) (calls : List (String × ℕ)) :
    ThresholdState × List Bool :=
  calls.foldl
    (fun acc c =>
      let r := thresholdOnFailure cfg acc.1 c.1 c.2
      (r.1, acc.2 ++ [r.2]))
    (ThresholdState.init, [])

/-- The claim's scenario for the threshold wrapper: one message in one actor
failing on every delivery, `ctx.attempts` running 1 through `n`. -/
def thresholdScenario (n : ℕ) : List (String × ℕ) :=
  (List.range n).map (fun i => ("event.actor", i + 1))

/-- The mutable state of `FrequencyMiddleware` that `on_failure` touches:
`_last_trigger_err` and `_reported_errors` (exception types tagged by ℕ). -/
structure FreqState where
  lastErr : List (String × ℚ)
  reported : List (String × List ℕ)

/-- The state a freshly constructed `FrequencyMiddleware` holds. -/
def FreqState.init : FreqState := ⟨[], []⟩

/-- `FrequencyMiddleware.on_failure`:

```python
actor_name = f'{ctx.actor.event.name}.{ctx.actor.name}'
now = time.monotonic()
if now - self._last_trigger_err.get(actor_name, 0) > self.timeframe:
    self._last_trigger_err[actor_name] = now
    err = type(ctx.exception)
    reported_errors = self._reported_errors.setdefault(actor_name, set())
    if err not in reported_errors:
        return self.middleware.on_failure(ctx)
    reported_errors.add(err)
return None
```

Note that `reported_errors.add(err)` sits after the `return` branch: it runs
only when `err` is already in the set.  Returns the new state and whether the
wrapped middleware's `on_failure` was forwarded. -/
def freqOnFailure (timeframe : ℚ) (st : FreqState)
    (actorName : String) (excType : ℕ) (now : ℚ) : FreqState × Bool :=
  if timeframe < now - ((alGet st.lastErr actorName).getD 0) then
    let st1 : FreqState := { st with lastErr := alSet st.lastErr actorName now }
    let st2 : FreqState :=
      { st1 with reported := alSetdefault st1.reported actorName [] }
    let reportedErrors := (alGet st2.reported actorName).getD []
    if excType ∉ reportedErrors then (st2, true)
    else
      ({ st2 with
          reported := alSet st2.reported actorName
            (if excType ∈ reportedErrors then reportedErrors
             else reportedErrors ++ [excType]) },
       false)
  else (st, false)

/-- One iteration of a run of `FrequencyMiddleware.on_failure`: apply the call
`c = (actor_name, exception type, time.monotonic())` to the accumulated state
and append the forwarded flag. -/
def freqRunStep (timeframe : ℚ) (acc : FreqState × List Bool)
    (c : String × ℕ × ℚ) : FreqState × List Bool :=
  let r := freqOnFailure timeframe acc.1 c.1 c.2.1 c.2.2
  (r.1, acc.2 ++ [r.2])

/-- Run `FrequencyMiddleware.on_failure` from the initial state over a
sequence of calls (`actor_name`, exception type, `time.monotonic()`), keeping
the forwarded flags. -/
def freqRun (timeframe : ℚ) (calls : List (String × ℕ × ℚ)) :
    FreqState × List Bool :=
  calls.foldl (freqRunStep timeframe) (FreqState.init, [])

/-- The exception-type-blind rule the claim reduces `on_failure` to: forward
exactly when more than `timeframe` has passed since the last forwarded
failure for this actor. -/
def freqSpecStep (timeframe : ℚ) (last : List (String × ℚ))
    (actorName : String) (now : ℚ) : List (String × ℚ) × Bool :=
  if timeframe < now - ((alGet last actorName).getD 0) then
    (alSet last actorName now, true)
  else (last, false)

/-- One iteration of a run of the exception-type-blind rule. -/
def freqSpecRunStep (timeframe : ℚ) (acc : List (String × ℚ) × List Bool)
    (c : String × ℕ × ℚ) : List (String × ℚ) × List Bool :=
  let r := freqSpecStep timeframe acc.1 c.1 c.2.2
  (r.1, acc.2 ++ [r.2])

/-- Run of the exception-type-blind rule over the same calls. -/
def freqSpecRun (timeframe : ℚ) (calls : List (String × ℕ × ℚ)) :
    List (String × ℚ) × List Bool :=
  calls.foldl (freqSpecRunStep timeframe) ([], [])

/-- The per-actor sets of reported exception types are all empty. -/
def reportedEmpty (st : FreqState) : Prop :=
  ∀ pr ∈ st.reported, pr.2 = ([] : List ℕ)

/-! ## HMAC serializer (`walnats/serializers/_wrappers.py`) -/

/-- The serializer wrapped by `HMACSerializer`: `encode` to bytes, `decode`
may raise. -/
structure InnerSerializer where
  encode : ℕ → List ℕ
  decode : List ℕ → Except String ℕ

/-- The `hmac` primitives `HMACSerializer` relies on: `hmac.digest`
(equivalently the `HMAC(key, digestmod)`/`update`/`digest` path of `decode`)
and the digest size of the configured hash algorithm.  `size_ok` records that
a digest always has `digest_size` bytes. -/
structure HmacAlg where
  digestSize : ℕ
  digest : List ℕ → List ℕ → List ℕ
  size_ok : ∀ k d, (digest k d).length = digestSize

/-- `HMACSerializer.encode`:

```python
data = self.serializer.encode(message)
digest = hmac.digest(key=self.key, msg=data, digest=self.hash_algorithm)
return digest + data
```
-/
def hmacEncode (alg : HmacAlg) (key : List ℕ) (ser : InnerSerializer)
    (m : ℕ) : List ℕ :=
  alg.digest key (ser.encode m) ++ ser.encode m

/-- `HMACSerializer.decode`:

```python
hasher = hmac.HMAC(key=self.key, digestmod=self.hash_algorithm)
actual_digest = data[:hasher.digest_size]
data = data[hasher.digest_size:]
hasher.update(data)
expected_digest = hasher.digest()
if not hmac.compare_digest(actual_digest, expected_digest):
    raise ValueError('the message is corrupted or altered')
return self.serializer.decode(data)
```

`hmac.compare_digest` is a constant-time byte-equality check; its value is
equality of the two byte strings, which is what a functional model can see.
-/
def hmacDecode (alg : HmacAlg) (key : List ℕ) (ser : InnerSerializer)
    (data : List ℕ) : Except String ℕ :=
  let actualDigest := data.take alg.digestSize
  let rest := data.drop alg.digestSize
  let expectedDigest := alg.digest key rest
  if actualDigest = expectedDigest then ser.decode rest
  else .error "the message is corrupted or altered"

/-! ## Spec-side definitions and concrete instances used by witnesses -/

/-- The value predicted for `Context.attempts` by the spec sentence: the
broker's `num_delivered` (or 1 when missing or zero), minus exactly 1 when the
`Walnats-Delay` header is present and `num_delivered ≥ 2`.  Built from the
spec's words, to be compared with `attempts` from the source. -/
def attemptsClaimed (numDelivered : Option ℕ) (delayHeader : Option String) :
    ℕ :=
  attemptsBase numDelivered -
    (match numDelivered, delayHeader with
     | some n, some _ => if 2 ≤ n then 1 else 0
     | _, _ => 0)

/-- Reserved-header freedom of the `meta` argument: a plain dict does not
itself carry `Nats-Msg-Id`, `Walnats-Trace` or `Walnats-Delay`. -/
def metaReservedFree : Option MetaArg → Prop
  | some (MetaArg.dict d) =>
    d HEADER_ID = none ∧ d HEADER_TRACE = none ∧ d HEADER_DELAY = none
  | _ => True

/-- A `meta` dict that already carries a `Walnats-Trace` key. -/
def metaWithTrace : Headers :=
  fun k => if k = HEADER_TRACE then some "x" else none

/-- A concrete digest: one byte, the sum of key and data modulo 5. -/
def toyAlg : HmacAlg where
  digestSize := 1
  digest := fun key data => [(key.sum + data.sum) % 5]
  size_ok := fun _ _ => rfl

/-- A concrete inner serializer: a number round-trips through a one-byte
string. -/
def toySer : InnerSerializer where
  encode := fun n => [n]
  decode := fun data =>
    match data with
    | [n] => .ok n
    | _ => .error "bad payload"

/-- A concrete environment in which the delay header parses to epoch 12 while
the clock reads 10, so the message is delayed 2 seconds into the future. -/
def toyDelayEnv : HandleEnv where
  now := 10
  parseFloat := fun _ => .ok 12
  decode := fun _ => .ok 0
  onStartHook := fun _ => .ok ()
  handler := fun n => .ok n

/-- A concrete environment whose handler always raises. -/
def toyFailEnv : HandleEnv where
  now := 10
  parseFloat := fun _ => .ok 0
  decode := fun _ => .ok 7
  onStartHook := fun _ => .ok ()
  handler := fun _ => .error (Exc.exception 0)

/-- A concrete actor: pulse on, two middlewares, the default retry schedule,
no response schema. -/
def toyActor : ActorModel where
  pulse := true
  numMiddlewares := 2
  retryDelay := [1 / 2, 1, 2, 4]
  hasResponse := false

/-- A concrete message carrying a `Walnats-Delay` header. -/
def toyDelayedMsg : MsgModel where
  data := [1, 2]
  delayHeader := some "12"
  replyHeader := none
  numDelivered := some 1

/-- A concrete message with no headers, delivered for the 6th time. -/
def toyPlainMsg : MsgModel where
  data := [1]
  delayHeader := none
  replyHeader := none
  numDelivered := some 5

/-! ## Helper lemmas -/

theorem getNakDelay_some (delays : List ℚ) (a : ℕ) (h : delays ≠ []) :
    getNakDelay delays (some a) = delays.getD (min a (delays.length - 1)) 0 := by
  have hl : delays.length ≠ 0 := by
    simpa using fun h0 => h (List.eq_nil_of_length_eq_zero h0)
  have e : getNakDelay delays (some a)
      = if delays = [] then 0
        else if delays.length ≤ a then delays.getLastD 0
        else delays.getD a 0 := rfl
  rw [e, if_neg h]
  by_cases hlen : delays.length ≤ a
  · rw [if_pos hlen]
    have h1 : min a (delays.length - 1) = delays.length - 1 := by omega
    rw [h1, List.getLastD_eq_getLast?, List.getLast?_eq_getElem?,
      List.getD_eq_getElem?_getD]
  · rw [if_neg hlen]
    have h1 : min a (delays.length - 1) = a := by omega
    rw [h1]

theorem getNakDelay_none (delays : List ℚ) (h : delays ≠ []) :
    getNakDelay delays none = delays.getD 0 0 := by
  cases delays with
  | nil => exact absurd rfl h
  | cons d rest => simp [getNakDelay]

theorem handleCore_error (env : HandleEnv) (a : ActorModel) (msg : MsgModel)
    (exc : Exc) (herr : (tryBody env a msg).2 = some exc) :
    handleCore env a msg
      = (if a.pulse then [Action.startPulse] else [])
        ++ (tryBody env a msg).1
        ++ (if a.pulse then [Action.cancelPulse] else [])
        ++ [Action.nak (getNakDelay a.retryDelay msg.numDelivered)]
        ++ (List.range a.numMiddlewares).map Action.onFailure := by
  simp only [handleCore, herr]

/-! ## Claim theorems -/

/-- C3: `Actor._get_nak_delay(attempt)` returns
`retry_delay[min(attempt, len(retry_delay)-1)]` when `attempt` is a
non-negative integer, returns `retry_delay[0]` when `attempt` is `None`, and
returns `0` when `retry_delay` is empty. -/
theorem getNakDelay_spec (delays : List ℚ) (a : ℕ) :
    (delays ≠ [] →
      getNakDelay delays (some a) = delays.getD (min a (delays.length - 1)) 0
      ∧ getNakDelay delays none = delays.getD 0 0)
    ∧ (delays = [] → ∀ attempt, getNakDelay delays attempt = 0) := by
  constructor
  · intro h
    exact ⟨getNakDelay_some delays a h, getNakDelay_none delays h⟩
  · intro h attempt
    simp [getNakDelay, h]

/-- Witness for C3: the default schedule `(.5, 1, 2, 4)` with attempt 7 yields
the last delay, 4 seconds. -/
theorem getNakDelay_spec_witness :
    ([(1 : ℚ) / 2, 1, 2, 4] ≠ ([] : List ℚ))
    ∧ getNakDelay [(1 : ℚ) / 2, 1, 2, 4] (some 7)
        = [(1 : ℚ) / 2, 1, 2, 4].getD (min 7 ([(1 : ℚ) / 2, 1, 2, 4].length - 1)) 0
    ∧ getNakDelay [(1 : ℚ) / 2, 1, 2, 4] none = [(1 : ℚ) / 2, 1, 2, 4].getD 0 0 :=
  ⟨by simp,
   ((getNakDelay_spec [(1 : ℚ) / 2, 1, 2, 4] 7).1 (by simp)).1,
   ((getNakDelay_spec [(1 : ℚ) / 2, 1, 2, 4] 7).1 (by simp)).2⟩

/-- C4 counterexample: a message whose `Walnats-Delay` header is present but
holds the empty string, delivered twice.  The claim predicts
`attempts = 2 - 1 = 1`; the code's `if delayed:` truthiness test treats the
empty string like an absent header and returns `2`. -/
theorem attempts_empty_header_counterexample :
    attempts (some 2) (some "") = 2
    ∧ attemptsClaimed (some 2) (some "") = 1
    ∧ attempts (some 2) (some "") ≠ attemptsClaimed (some 2) (some "") := by
  refine ⟨?_, ?_, ?_⟩ <;> decide

/-- C4 amended: for every received message whose `Walnats-Delay` header, when
present, is non-empty, `Context.attempts` equals the broker's `num_delivered`
(or 1 when `num_delivered` is missing or zero), minus exactly 1 when the
header is present and `num_delivered ≥ 2`; the result is always at least 1. -/
theorem attempts_spec (nd : Option ℕ) (dh : Option String)
    (hne : ∀ s, dh = some s → s ≠ "") :
    attempts nd dh = attemptsClaimed nd dh ∧ 1 ≤ attempts nd dh := by
  rcases nd with _ | n <;> rcases dh with _ | s
  · exact ⟨rfl, by decide⟩
  · have e : attempts none (some s)
        = (if 2 ≤ 1 then (if s = "" then 1 else 1 - 1) else 1) := rfl
    have e' : attemptsClaimed none (some s) = 1 - 0 := rfl
    rw [e, e']
    norm_num
  · have e : attempts (some n) none
        = (if 2 ≤ (if n = 0 then 1 else n) then (if n = 0 then 1 else n)
           else (if n = 0 then 1 else n)) := rfl
    have e' : attemptsClaimed (some n) none = (if n = 0 then 1 else n) - 0 := rfl
    rw [e, e']
    constructor <;> split_ifs <;> omega
  · have hs : s ≠ "" := hne s rfl
    have e : attempts (some n) (some s)
        = (if 2 ≤ (if n = 0 then 1 else n) then
             (if s = "" then (if n = 0 then 1 else n)
              else (if n = 0 then 1 else n) - 1)
           else (if n = 0 then 1 else n)) := rfl
    have e' : attemptsClaimed (some n) (some s)
        = (if n = 0 then 1 else n) - (if 2 ≤ n then 1 else 0) := rfl
    rw [e, e']
    constructor <;> split_ifs <;> omega

/-- Witness for C4 (amended): third delivery of a message that carries a real
delay timestamp counts as two attempts. -/
theorem attempts_spec_witness :
    attempts (some 3) (some "1674000000.0")
      = attemptsClaimed (some 3) (some "1674000000.0")
    ∧ 1 ≤ attempts (some 3) (some "1674000000.0") :=
  attempts_spec (some 3) (some "1674000000.0")
    (fun s hs => by injection hs with h; rw [← h]; decide)

/-- C9: for every key, hash algorithm and message whose inner serializer
round-trips, `HMACSerializer.decode ∘ HMACSerializer.encode` is the identity;
and every input whose leading `digest_size` bytes are not the HMAC digest of
the remaining bytes is rejected with the error
"the message is corrupted or altered" (the digest comparison in the source is
`hmac.compare_digest`, a constant-time equality check). -/
theorem hmac_roundtrip_and_reject (alg : HmacAlg) (key : List ℕ)
    (ser : InnerSerializer) (m : ℕ)
    (hrt : ser.decode (ser.encode m) = .ok m) :
    hmacDecode alg key ser (hmacEncode alg key ser m) = .ok m
    ∧ ∀ data : List ℕ,
        data.take alg.digestSize ≠ alg.digest key (data.drop alg.digestSize) →
        hmacDecode alg key ser data
          = .error "the message is corrupted or altered" := by
  constructor
  · have hlen : (alg.digest key (ser.encode m)).length = alg.digestSize :=
      alg.size_ok _ _
    unfold hmacDecode hmacEncode
    rw [← hlen, List.take_left, List.drop_left]
    rw [if_pos rfl, hrt]
  · intro data hne
    unfold hmacDecode
    rw [if_neg hne]

/-- Witness for C9: the toy algorithm round-trips the message `3` and rejects
a two-byte input whose leading byte is not the digest of the rest. -/
theorem hmac_roundtrip_and_reject_witness :
    hmacDecode toyAlg [1] toySer (hmacEncode toyAlg [1] toySer 3) = .ok 3
    ∧ hmacDecode toyAlg [1] toySer [0, 3]
        = .error "the message is corrupted or altered" := by
  have h := hmac_roundtrip_and_reject toyAlg [1] toySer 3 (by rfl)
  exact ⟨h.1, h.2 [0, 3] (by decide)⟩

/-- C2: a delivered message whose `Walnats-Delay` header holds a timestamp
more than 1 ms in the future of the actor's clock is nak'ed with exactly the
remaining delay (header value minus now) and handling returns immediately:
the action trace is the single nak — no heartbeat task is started, no
semaphore is acquired, the payload is not decoded, and neither the handler
nor any middleware hook runs. -/
theorem handleMessage_future_delay (env : HandleEnv) (a : ActorModel)
    (msg : MsgModel) (s : String) (t : ℚ)
    (hh : msg.delayHeader = some s) (hs : s ≠ "")
    (hp : env.parseFloat s = .ok t) (hfut : 1 / 1000 < t - env.now) :
    handleMessage env a msg = .ok [Action.nak (t - env.now)]
    ∧ ∀ acts : List Action, handleMessage env a msg = .ok acts →
        Action.startPulse ∉ acts
        ∧ Action.acquireActorSem ∉ acts ∧ Action.acquireGlobalSem ∉ acts
        ∧ Action.decodePayload ∉ acts ∧ Action.runHandler ∉ acts
        ∧ (∀ i, Action.onStart i ∉ acts) ∧ (∀ i, Action.onFailure i ∉ acts)
        ∧ (∀ i, Action.onSuccess i ∉ acts) := by
  have hfut' : ((1000 : ℚ))⁻¹ < t - env.now := by
    rw [← one_div]
    exact hfut
  have he : handleMessage env a msg = .ok [Action.nak (t - env.now)] := by
    simp [handleMessage, delayCheck, hh, hs, hp, hfut']
  refine ⟨he, fun acts hacts => ?_⟩
  rw [he] at hacts
  injection hacts with hacts
  subst hacts
  refine ⟨?_, ?_, ?_, ?_, ?_, ?_, ?_, ?_⟩ <;> simp

/-- Witness for C2: in `toyDelayEnv` the clock reads 10 and the header parses
to 12, so the message is nak'ed with the remaining 2 seconds. -/
theorem handleMessage_future_delay_witness :
    handleMessage toyDelayEnv toyActor toyDelayedMsg
      = .ok [Action.nak (12 - toyDelayEnv.now)]
    ∧ Action.startPulse
        ∉ [Action.nak ((12 : ℚ) - toyDelayEnv.now)] :=
  ⟨(handleMessage_future_delay toyDelayEnv toyActor toyDelayedMsg "12" 12
      rfl (by decide) rfl (by norm_num [toyDelayEnv])).1,
   by simp⟩

/-- C1: when handling raises in decode, `on_start` middleware dispatch, or the
handler (exception or cancellation alike), `_handle_message` returns normally
(the exception does not escape the per-message task, so the pull loop
continues) and its action trace cancels the heartbeat task (when one was
started), naks the message with delay `retry_delay[min(num_delivered, len-1)]`
and dispatches `on_failure` on every middleware. -/
theorem handleMessage_failure (env : HandleEnv) (a : ActorModel)
    (msg : MsgModel) (e : Exc) (n : ℕ)
    (hreach : delayCheck env msg = none)
    (herr : (tryBody env a msg).2 = some e)
    (hnd : msg.numDelivered = some n)
    (hrd : a.retryDelay ≠ []) :
    ∃ acts : List Action,
      handleMessage env a msg = .ok acts
      ∧ (a.pulse = true → Action.cancelPulse ∈ acts)
      ∧ Action.nak (a.retryDelay.getD (min n (a.retryDelay.length - 1)) 0) ∈ acts
      ∧ ∀ i < a.numMiddlewares, Action.onFailure i ∈ acts := by
  have hcore := handleCore_error env a msg e herr
  have hd : getNakDelay a.retryDelay msg.numDelivered
      = a.retryDelay.getD (min n (a.retryDelay.length - 1)) 0 := by
    rw [hnd]
    exact getNakDelay_some a.retryDelay n hrd
  refine ⟨handleCore env a msg, ?_, ?_, ?_, ?_⟩
  · unfold handleMessage
    rw [hreach]
  · intro hp
    rw [hcore, hp]
    simp
  · rw [hcore, hd]
    simp
  · intro i hi
    rw [hcore]
    simp only [List.mem_append, List.mem_map, List.mem_range]
    exact Or.inr ⟨i, hi, rfl⟩

/-- Witness for C1: in `toyFailEnv` the handler raises; the sixth delivery of
`toyPlainMsg` is nak'ed with the last delay of the default schedule and both
middlewares get their `on_failure` hook. -/
theorem handleMessage_failure_witness :
    ∃ acts : List Action,
      handleMessage toyFailEnv toyActor toyPlainMsg = .ok acts
      ∧ (toyActor.pulse = true → Action.cancelPulse ∈ acts)
      ∧ Action.nak
          (toyActor.retryDelay.getD (min 5 (toyActor.retryDelay.length - 1)) 0)
          ∈ acts
      ∧ ∀ i < toyActor.numMiddlewares, Action.onFailure i ∈ acts :=
  handleMessage_failure toyFailEnv toyActor toyPlainMsg (Exc.exception 0) 5
    rfl rfl rfl (by simp [toyActor])

theorem range_flatMap_const_comm {α : Type} (c : List α) (n : ℕ) :
    (List.range n).flatMap (fun _ => c) ++ c
      = c ++ (List.range n).flatMap (fun _ => c) := by
  induction n with
  | zero => simp
  | succ m ih =>
    rw [List.range_succ, List.flatMap_append]
    simp only [List.flatMap_cons, List.flatMap_nil, List.append_nil]
    rw [List.append_assoc, ← List.append_assoc, ih, List.append_assoc, ih]

theorem priorityTrace_succ (p : ℕ) :
    priorityTrace (p + 1)
      = SemOp.acq :: SemOp.yieldCtl :: SemOp.rel :: priorityTrace p := by
  unfold priorityTrace
  rw [List.range_succ, List.flatMap_append]
  simp only [List.flatMap_cons, List.flatMap_nil, List.append_nil]
  rw [List.append_assoc, ← List.append_assoc, range_flatMap_const_comm,
    List.append_assoc]
  rfl

theorem priorityTrace_take_held (p : ℕ) : ∀ k : ℕ,
    0 ≤ heldAfter ((priorityTrace p).take k)
    ∧ heldAfter ((priorityTrace p).take k) ≤ 1 := by
  induction p with
  | zero =>
    intro k
    have e : priorityTrace 0 = [SemOp.acq, SemOp.critical, SemOp.rel] := rfl
    rw [e]
    match k with
    | 0 => simp [heldAfter]
    | 1 => simp [heldAfter]
    | 2 => simp [heldAfter]
    | k + 3 =>
      rw [List.take_of_length_le (by simp)]
      simp [heldAfter]
  | succ q ih =>
    intro k
    rw [priorityTrace_succ]
    match k with
    | 0 => simp [heldAfter]
    | 1 => simp [heldAfter]
    | 2 => simp [heldAfter]
    | k + 3 =>
      simp only [List.take_succ_cons, heldAfter]
      have := ih k
      omega

theorem priorityTrace_count_acq (p : ℕ) :
    (priorityTrace p).count SemOp.acq = p + 1 := by
  induction p with
  | zero => rfl
  | succ q ih => rw [priorityTrace_succ]; simp [List.count_cons, ih]

theorem priorityTrace_count_rel (p : ℕ) :
    (priorityTrace p).count SemOp.rel = p + 1 := by
  induction p with
  | zero => rfl
  | succ q ih => rw [priorityTrace_succ]; simp [List.count_cons, ih]

theorem priorityTrace_held_zero (p : ℕ) :
    heldAfter (priorityTrace p) = 0 := by
  induction p with
  | zero => rfl
  | succ q ih => rw [priorityTrace_succ]; simp [heldAfter, ih]

/-- C5: for every priority `p ∈ {0, 1, 2}`, `Priority.acquire` holds at most
one permit of the shared semaphore at any moment of its operation sequence
(never fewer than zero), performs exactly `p` acquire-and-immediately-release
rounds followed by one held acquire (`p + 1` acquires and `p + 1` releases in
total), and ends with no permit held. -/
theorem priority_acquire_at_most_one (p : ℕ) (hp : p ≤ 2)
    (pre : List SemOp) (hpre : pre <+: priorityTrace p) :
    heldAfter pre ≤ 1 ∧ 0 ≤ heldAfter pre
    ∧ (priorityTrace p).count SemOp.acq = p + 1
    ∧ (priorityTrace p).count SemOp.rel = p + 1
    ∧ heldAfter (priorityTrace p) = 0 := by
  have he : pre = (priorityTrace p).take pre.length :=
    List.prefix_iff_eq_take.mp hpre
  rw [he]
  exact ⟨(priorityTrace_take_held p pre.length).2,
    (priorityTrace_take_held p pre.length).1,
    priorityTrace_count_acq p, priorityTrace_count_rel p,
    priorityTrace_held_zero p⟩

/-- Witness for C5: the low-priority trace (`p = 2`) at the prefix ending just
after its final acquire, the moment the permit is held. -/
theorem priority_acquire_at_most_one_witness :
    heldAfter [SemOp.acq, SemOp.yieldCtl, SemOp.rel, SemOp.acq,
      SemOp.yieldCtl, SemOp.rel, SemOp.acq] ≤ 1
    ∧ (priorityTrace 2).count SemOp.acq = 3 :=
  ⟨(priority_acquire_at_most_one 2 (by decide)
      [SemOp.acq, SemOp.yieldCtl, SemOp.rel, SemOp.acq,
        SemOp.yieldCtl, SemOp.rel, SemOp.acq]
      ⟨[SemOp.critical, SemOp.rel], rfl⟩).1,
   (priority_acquire_at_most_one 2 (by decide)
      [SemOp.acq, SemOp.yieldCtl, SemOp.rel, SemOp.acq,
        SemOp.yieldCtl, SemOp.rel, SemOp.acq]
      ⟨[SemOp.critical, SemOp.rel], rfl⟩).2.2.1⟩

/-- C7 counterexample: 40 consecutive failing deliveries of one message in a
single actor with `ctx.attempts` running 1 through 40 and thresholds
`{total=20, actor=20, message=20}` forward `on_failure` 20 times, not 19:
once `attempts > 20` (the 21st failure onwards) the `message_failures` branch
forwards on every delivery and the counters are no longer incremented. -/
theorem threshold_scenario_not_nineteen :
    (thresholdRun {} (thresholdScenario 40)).2 = 20
    ∧ (thresholdRun {} (thresholdScenario 40)).2 ≠ 19 := by
  constructor
  · rfl
  · decide

/-- C7 amended: under thresholds `{total=20, actor=20, message=20}`, 40
consecutive failing deliveries of one message in a single actor (attempts 1
through 40, no intervening success) forward the wrapped middleware's
`on_failure` exactly 20 times: nothing is forwarded on the first 20 failures
and every failure from the 21st through the 40th is forwarded. -/
theorem threshold_scenario_forwards_twenty :
    (thresholdFlags {} (thresholdScenario 40)).2
      = List.replicate 20 false ++ List.replicate 20 true
    ∧ (thresholdRun {} (thresholdScenario 40)).2 = 20 := by
  constructor
  · rfl
  · rfl

/-- C8: the uid emitted by the clock is not stable across replicas that wake
within the same period.  `Clock._emit` computes `now.timestamp() % period`
(the fractional offset inside the period) instead of a value derived from
`floor(now_epoch / period)`: two replicas waking at epoch 60.0 and epoch 60.5
are in the same period (`floor(t/60) = 1` for both) yet compute uids 0 and
0.5, so the broker's message-id window does not deduplicate their events —
contradicting the claim and the source's own docstring ("It is safe to run
multiple clocks on the same nats instance, events will not be duplicated"). -/
theorem clock_uid_not_stable_in_period :
    clockPeriodIndex 60 60 = clockPeriodIndex 60 (121 / 2)
    ∧ clockUid 60 60 ≠ clockUid 60 (121 / 2)
    ∧ clockUid 60 60 = 0 ∧ clockUid 60 (121 / 2) = 1 / 2 := by
  have h1 : ⌊(60 : ℚ) / 60⌋ = 1 := by norm_num
  have h2 : ⌊(121 / 2 : ℚ) / 60⌋ = 1 := by
    rw [Int.floor_eq_iff]
    norm_num
  refine ⟨?_, ?_, ?_, ?_⟩ <;>
    simp [clockUid, clockPeriodIndex, pyMod, h1, h2] <;> norm_num

theorem hset_same (hs : Headers) (k v : String) : hset hs k v k = some v := by
  simp [hset]

theorem hset_other (hs : Headers) (k v k' : String) (h : k' ≠ k) :
    hset hs k v k' = hs k' := by
  simp [hset, h]

/-- C6 counterexample: `emit` with `trace_id=None` but a `meta` dict that
already carries a `Walnats-Trace` key produces headers in which
`Walnats-Trace` is set — the claim's "set exactly when trace_id is given"
fails, because `meta` is copied verbatim and reserved keys are not
stripped. -/
theorem makeHeaders_meta_collision :
    makeHeaders 0 (fun _ => "0") none none none
        (some (MetaArg.dict metaWithTrace)) none HEADER_TRACE = some "x"
    ∧ (some "x" : Option String) ≠ none := by
  exact ⟨rfl, by simp⟩

/-- C6 amended: for every combination of `uid`, `trace_id`, `delay` and
`meta` in which the `meta` dict does not itself carry the reserved keys
`Nats-Msg-Id`, `Walnats-Trace`, `Walnats-Delay` (a CloudEvents `meta` never
does, its keys all start with `ce-`), the headers built by `emit` start from
`meta`; `Nats-Msg-Id` is `uid` when given, else the CloudEvent id when `meta`
is a CloudEvent, else unset; `Walnats-Trace` is set exactly when `trace_id`
is given; `Walnats-Delay` is set exactly when `delay` is given, to the
decimal string of `now + delay`. -/
theorem makeHeaders_spec (now : ℚ) (reprF : ℚ → String)
    (uid trace : Option String) (delay : Option ℚ) (meta : Option MetaArg)
    (hm : metaReservedFree meta) :
    (∀ k, k ≠ HEADER_ID → k ≠ HEADER_TRACE → k ≠ HEADER_DELAY →
        makeHeaders now reprF uid trace delay meta none k = metaHeaders meta k)
    ∧ makeHeaders now reprF uid trace delay meta none HEADER_ID
        = (match uid, meta with
           | some u, _ => some u
           | none, some (MetaArg.cloud ce) => some ce.id
           | none, _ => none)
    ∧ makeHeaders now reprF uid trace delay meta none HEADER_TRACE = trace
    ∧ makeHeaders now reprF uid trace delay meta none HEADER_DELAY
        = delay.map (fun d => reprF (now + d)) := by
  obtain ⟨hm1, hm2, hm3⟩ :
      metaHeaders meta HEADER_ID = none
      ∧ metaHeaders meta HEADER_TRACE = none
      ∧ metaHeaders meta HEADER_DELAY = none := by
    rcases meta with _ | (d | ce)
    · exact ⟨rfl, rfl, rfl⟩
    · exact hm
    · exact ⟨rfl, rfl, rfl⟩
  refine ⟨?_, ?_, ?_, ?_⟩
  · intro k hk1 hk2 hk3
    rcases uid with _ | u <;> rcases trace with _ | tr <;>
      rcases delay with _ | dl <;> rcases meta with _ | (d | ce) <;>
      simp [makeHeaders, metaHeaders, hset, hk1, hk2, hk3]
  · rcases uid with _ | u <;> rcases trace with _ | tr <;>
      rcases delay with _ | dl <;> rcases meta with _ | (d | ce) <;>
      simp_all [makeHeaders, metaHeaders, hset, HEADER_ID, HEADER_TRACE,
        HEADER_DELAY]
  · rcases uid with _ | u <;> rcases trace with _ | tr <;>
      rcases delay with _ | dl <;> rcases meta with _ | (d | ce) <;>
      simp_all [makeHeaders, metaHeaders, hset, HEADER_ID, HEADER_TRACE,
        HEADER_DELAY]
  · rcases uid with _ | u <;> rcases trace with _ | tr <;>
      rcases delay with _ | dl <;> rcases meta with _ | (d | ce) <;>
      simp_all [makeHeaders, metaHeaders, hset, HEADER_ID, HEADER_TRACE,
        HEADER_DELAY]

/-- Witness for C6 (amended): a CloudEvents `meta` with no explicit `uid`, a
trace id and a 5-second delay at epoch 100. -/
theorem makeHeaders_spec_witness :
    metaReservedFree (some (MetaArg.cloud { id := "i", source := "s", type := "t" }))
    ∧ makeHeaders 100 toString (none) (some "tr") (some 5)
        (some (MetaArg.cloud { id := "i", source := "s", type := "t" })) none
        HEADER_ID = some "i"
    ∧ makeHeaders 100 toString (none) (some "tr") (some 5)
        (some (MetaArg.cloud { id := "i", source := "s", type := "t" })) none
        HEADER_TRACE = some "tr"
    ∧ makeHeaders 100 toString (none) (some "tr") (some 5)
        (some (MetaArg.cloud { id := "i", source := "s", type := "t" })) none
        HEADER_DELAY = some (toString ((100 : ℚ) + 5)) := by
  have h := makeHeaders_spec 100 toString none (some "tr") (some 5)
    (some (MetaArg.cloud { id := "i", source := "s", type := "t" }))
    trivial
  exact ⟨trivial, h.2.1, h.2.2.1, h.2.2.2⟩

theorem alGet_alSet_self {α : Type} (d : List (String × α)) (k : String)
    (v : α) : alGet (alSet d k v) k = some v := by
  induction d with
  | nil =>
    unfold alSet alGet
    rw [List.find?_cons_of_pos _ (by simp)]
    rfl
  | cons p rest ih =>
    unfold alSet
    by_cases h : p.1 = k
    · rw [if_pos h]
      unfold alGet
      rw [List.find?_cons_of_pos _ (by simp)]
      rfl
    · rw [if_neg h]
      unfold alGet
      rw [List.find?_cons_of_neg _ (by simpa using h)]
      exact ih

theorem alGet_all {α : Type} {P : α → Prop} {d : List (String × α)}
    {k : String} {v : α} (hall : ∀ p ∈ d, P p.2)
    (hget : alGet d k = some v) : P v := by
  unfold alGet at hget
  cases hfind : d.find? (fun p => p.1 = k) with
  | none => rw [hfind] at hget; simp at hget
  | some pr =>
    rw [hfind] at hget
    simp at hget
    rw [← hget]
    exact hall pr (List.mem_of_find?_eq_some hfind)

theorem alSet_all {α : Type} {P : α → Prop} (d : List (String × α))
    (k : String) (v : α) (hall : ∀ p ∈ d, P p.2) (hv : P v) :
    ∀ p ∈ alSet d k v, P p.2 := by
  induction d with
  | nil =>
    intro p hp
    have e : alSet ([] : List (String × α)) k v = [(k, v)] := rfl
    rw [e] at hp
    simp at hp
    rw [hp]
    exact hv
  | cons q rest ih =>
    intro p hp
    by_cases h : q.1 = k
    · simp only [alSet, if_pos h, List.mem_cons] at hp
      rcases hp with hp | hp
      · rw [hp]; exact hv
      · exact hall p (List.mem_cons_of_mem q hp)
    · simp only [alSet, if_neg h, List.mem_cons] at hp
      rcases hp with hp | hp
      · rw [hp]; exact hall q (List.mem_cons_self q rest)
      · exact ih (fun r hr => hall r (List.mem_cons_of_mem q hr)) p hp

theorem alSetdefault_all {α : Type} {P : α → Prop} (d : List (String × α))
    (k : String) (v₀ : α) (hall : ∀ p ∈ d, P p.2) (hv : P v₀) :
    ∀ p ∈ alSetdefault d k v₀, P p.2 := by
  unfold alSetdefault
  cases alGet d k with
  | some v => exact hall
  | none => exact alSet_all d k v₀ hall hv

theorem alGet_alSetdefault_self {α : Type} (d : List (String × α))
    (k : String) (v₀ : α) :
    alGet (alSetdefault d k v₀) k = some ((alGet d k).getD v₀) := by
  unfold alSetdefault
  cases h : alGet d k with
  | some v => simp [h]
  | none => simp [alGet_alSet_self]

theorem freqOnFailure_step (tf : ℚ) (st : FreqState) (actorName : String)
    (excType : ℕ) (now : ℚ) (hinv : reportedEmpty st) :
    reportedEmpty (freqOnFailure tf st actorName excType now).1
    ∧ (freqOnFailure tf st actorName excType now).2
        = (freqSpecStep tf st.lastErr actorName now).2
    ∧ (freqOnFailure tf st actorName excType now).1.lastErr
        = (freqSpecStep tf st.lastErr actorName now).1 := by
  have hinv' : ∀ p ∈ st.reported, p.2 = ([] : List ℕ) := hinv
  by_cases hc : tf < now - ((alGet st.lastErr actorName).getD 0)
  · have hrep : (alGet (alSetdefault st.reported actorName []) actorName).getD []
        = ([] : List ℕ) := by
      rw [alGet_alSetdefault_self]
      cases h : alGet st.reported actorName with
      | none => simp
      | some l =>
        simp [alGet_all (P := fun l => l = ([] : List ℕ)) hinv' h]
    have e : freqOnFailure tf st actorName excType now
        = ({ lastErr := alSet st.lastErr actorName now,
             reported := alSetdefault st.reported actorName [] }, true) := by
      unfold freqOnFailure
      rw [if_pos hc]
      simp [hrep]
    have es : freqSpecStep tf st.lastErr actorName now
        = (alSet st.lastErr actorName now, true) := by
      unfold freqSpecStep
      rw [if_pos hc]
    rw [e, es]
    refine ⟨?_, rfl, rfl⟩
    intro p hp
    exact alSetdefault_all (P := fun l => l = ([] : List ℕ))
      st.reported actorName [] hinv' rfl p hp
  · have e : freqOnFailure tf st actorName excType now = (st, false) := by
      unfold freqOnFailure
      rw [if_neg hc]
    have es : freqSpecStep tf st.lastErr actorName now
        = (st.lastErr, false) := by
      unfold freqSpecStep
      rw [if_neg hc]
    rw [e, es]
    exact ⟨hinv, rfl, rfl⟩

theorem freqRun_aux (tf : ℚ) (calls : List (String × ℕ × ℚ)) :
    ∀ (st : FreqState) (flags : List Bool),
      reportedEmpty st →
      reportedEmpty (calls.foldl (freqRunStep tf) (st, flags)).1
      ∧ (calls.foldl (freqRunStep tf) (st, flags)).2
          = (calls.foldl (freqSpecRunStep tf) (st.lastErr, flags)).2
      ∧ (calls.foldl (freqRunStep tf) (st, flags)).1.lastErr
          = (calls.foldl (freqSpecRunStep tf) (st.lastErr, flags)).1 := by
  induction calls with
  | nil => exact fun st flags hinv => ⟨hinv, rfl, rfl⟩
  | cons c rest ih =>
    intro st flags hinv
    simp only [List.foldl_cons]
    have hstep := freqOnFailure_step tf st c.1 c.2.1 c.2.2 hinv
    have e1 : freqRunStep tf (st, flags) c
        = ((freqOnFailure tf st c.1 c.2.1 c.2.2).1,
           flags ++ [(freqOnFailure tf st c.1 c.2.1 c.2.2).2]) := rfl
    have e2 : freqSpecRunStep tf (st.lastErr, flags) c
        = ((freqSpecStep tf st.lastErr c.1 c.2.2).1,
           flags ++ [(freqSpecStep tf st.lastErr c.1 c.2.2).2]) := rfl
    rw [e1, e2, hstep.2.1, ← hstep.2.2]
    exact ih _ _ hstep.1

/-- C10: in `FrequencyMiddleware.on_failure` the per-actor set of reported
exception types is never added to — the `reported_errors.add(err)` statement
sits after the `return` and is unreachable — so over every call sequence the
sets stay empty, and whether `on_failure` is forwarded never depends on the
exception type: it is forwarded exactly when more than `timeframe` seconds
have passed since the last forwarded failure for that actor (the
exception-type-blind rule `freqSpecRun`). -/
theorem freq_on_failure_type_blind (tf : ℚ)
    (calls : List (String × ℕ × ℚ)) :
    reportedEmpty (freqRun tf calls).1
    ∧ (freqRun tf calls).2 = (freqSpecRun tf calls).2 := by
  have h := freqRun_aux tf calls FreqState.init []
    (fun p hp => by simp [FreqState.init] at hp)
  exact ⟨h.1, h.2.1⟩

/-- Witness for C10: two failures of the same actor 100 seconds apart with
different exception types — the first is forwarded, the second suppressed by
the time window alone. -/
theorem freq_on_failure_type_blind_witness :
    reportedEmpty (freqRun 600 [("e.a", 3, 1000), ("e.a", 4, 1100)]).1
    ∧ (freqRun 600 [("e.a", 3, 1000), ("e.a", 4, 1100)]).2 = [true, false] := by
  have h := freq_on_failure_type_blind 600 [("e.a", 3, 1000), ("e.a", 4, 1100)]
  refine ⟨h.1, ?_⟩
  rw [h.2]
  have h1 : (600 : ℚ) < 1000 - ((alGet [] "e.a").getD 0) := by
    simp [alGet]
    norm_num
  have h2 : ¬ (600 : ℚ)
      < 1100 - ((alGet (alSet [] "e.a" (1000 : ℚ)) "e.a").getD 0) := by
    rw [alGet_alSet_self]
    norm_num
  simp only [freqSpecRun, freqSpecRunStep, freqSpecStep, List.foldl_cons,
    List.foldl_nil]
  rw [if_pos h1]
  simp only
  rw [if_neg h2]
  simp

end Walnats
